import Mathlib

/-!
# Verification of the task-extraction pipeline (`src/orchestration/pipeline.py`)

A shallow embedding of the LangGraph pipeline: the state type, the database
fetch/save helpers, the five graph nodes, the conditional router and
`run_pipeline`.  Generation-service replies and per-stage timestamps are
inputs (an `Env`); the relational store is explicit state (`Store`).
Python `dict`/`list` values that flow through the pipeline are modelled by
the JSON-like type `JVal`; Python exceptions (KeyError, TypeError,
json.JSONDecodeError) are modelled by `Except PipeError`.
-/

/-- JSON-like values: the payloads produced by `json.loads` on an agent
reply, and the Python dicts threaded through the pipeline state. -/
inductive JVal where
  | null : JVal
  | bool (b : Bool) : JVal
  | num (n : Int) : JVal
  | str (s : String) : JVal
  | arr (xs : List JVal) : JVal
  | obj (kvs : List (String × JVal)) : JVal

namespace JVal

/-- `d[k]` on a Python dict: `some v` when the key is present (first
occurrence wins, as in a dict), `none` otherwise or on a non-dict. -/
def getKey? : JVal → String → Option JVal
  | .obj kvs, k => (kvs.find? (fun kv => kv.1 == k)).map Prod.snd
  | _, _ => none

/-- `d.get(k, default)` on a Python dict. -/
def getD (v : JVal) (k : String) (d : JVal) : JVal :=
  (v.getKey? k).getD d

/-- `k in d` on a Python dict. -/
def hasKey (v : JVal) (k : String) : Bool :=
  (v.getKey? k).isSome

/-- `d[k] = x` on a Python dict: replaces the value at `k` in place if
present, appends the binding otherwise; fails on a non-dict (TypeError). -/
def setKey : JVal → String → JVal → Option JVal
  | .obj kvs, k, x =>
      if kvs.any (fun kv => kv.1 == k) then
        some (.obj (kvs.map (fun kv => if kv.1 == k then (k, x) else kv)))
      else
        some (.obj (kvs ++ [(k, x)]))
  | _, _, _ => none

/-- Python `v == s` for a string literal `s`: true exactly when `v` is
that string (comparison of a parsed JSON value against a `str`). -/
def isStr : JVal → String → Bool
  | .str t, s => t == s
  | _, _ => false

end JVal

/-- Outcome of `json.loads` on one generation-service reply: either the
raw text failed to parse (`malformed`) or it parsed to a value. -/
inductive Reply where
  | malformed (raw : String) : Reply
  | parsed (v : JVal) : Reply

/-- Exceptions escaping the pipeline, as the API layer distinguishes them:
`json.JSONDecodeError` from a stage's `json.loads` versus every other
Python error (KeyError, TypeError, AttributeError, ...). -/
inductive PipeError where
  | jsonParseError (stage : String) : PipeError
  | pipelineError (msg : String) : PipeError
deriving DecidableEq

/-- `json.loads(response.content)` for one stage. -/
def parseReply (stage : String) : Reply → Except PipeError JVal
  | .malformed _ => .error (.jsonParseError stage)
  | .parsed v => .ok v

/-! ## The relational store -/

/-- A row of `participants`. -/
structure Participant where
  participant_id : Int
  name : String
  role : String
  department : String
  active : Bool
deriving DecidableEq

/-- A row of `patients`. -/
structure Patient where
  patient_id : Int
  name : String
  mrn : String
  high_acuity : Bool
  critical_status : Bool
  active : Bool
deriving DecidableEq

/-- A row of `task_categories`. -/
structure TaskCategory where
  category_id : Int
  category_name : String
  description : String
  requires_patient : Bool
  requires_participant : Bool
  active : Bool
deriving DecidableEq

/-- A row of `category_sla`. -/
structure CategorySLA where
  category_id : Int
  sla_hours : Int
  escalation_hours : Int
deriving DecidableEq

/-- A row of `task_policies`. -/
structure PolicyRow where
  policy_version : String
  policy_data : List (String × JVal)
  active : Bool
  effective_date : Int

/-- A row of `priority_weights`. -/
structure WeightRow where
  weight_name : String
  weight_category : String
  weight_value : Int
  description : String
  active : Bool
deriving DecidableEq

/-- A row of `tasks`, as written by the INSERT in `save_task_to_db`
(column order of the statement; generated `task_id` first). -/
structure TaskRow where
  task_id : Int
  transcript_id : Option Int
  participant_id : JVal
  patient_id : JVal
  category_id : JVal
  description : JVal
  due_date : JVal
  expected_completion_date : JVal
  priority_score : JVal
  priority_level : JVal
  source_spans : JVal
  enriched_fields : JVal
  score_breakdown : JVal
  lineage_metadata : JVal
  qa_metadata : JVal
  prioritization_metadata : JVal
  status : String

/-- The database: the grounding tables, the policy and weight tables, and
the `tasks` table with its id sequence. -/
structure Store where
  participants : List Participant
  patients : List Patient
  categories : List TaskCategory
  slas : List CategorySLA
  policies : List PolicyRow
  weights : List WeightRow
  tasks : List TaskRow
  next_task_id : Int

/-! ## Database tools (`fetch_db_context`, `fetch_active_policy`,
`fetch_priority_weights`, `save_task_to_db`) -/

/-- One entry of the SLA join result (`category_name, sla_hours,
escalation_hours`). -/
structure SLAEntry where
  category_name : String
  sla_hours : Int
  escalation_hours : Int
deriving DecidableEq

/-- The grounding snapshot returned by `fetch_db_context`: active rows of
each table, and the `category_sla ⋈ task_categories` join. -/
structure DbContext where
  participants : List Participant
  patients : List Patient
  categories : List TaskCategory
  slas : List SLAEntry
deriving DecidableEq

/-- `fetch_db_context`: the four read queries against the store. -/
def fetch_db_context (s : Store) : DbContext :=
  { participants := s.participants.filter (·.active)
    patients := s.patients.filter (·.active)
    categories := s.categories.filter (·.active)
    slas := s.slas.filterMap (fun cs =>
      (s.categories.find? (fun tc => tc.category_id == cs.category_id)).map
        (fun tc => ⟨tc.category_name, cs.sla_hours, cs.escalation_hours⟩)) }

/-- Insert a binding into a Python dict literal being built
(`{"policy_version": v, **policy_data}`): a later key overwrites an
earlier one in place. -/
def dictInsert (kvs : List (String × JVal)) (k : String) (v : JVal) :
    List (String × JVal) :=
  if kvs.any (fun kv => kv.1 == k) then
    kvs.map (fun kv => if kv.1 == k then (k, v) else kv)
  else
    kvs ++ [(k, v)]

/-- The active policy row the query returns: among `active = true` rows,
the one with the greatest `effective_date` (the first such row, ties kept
in table order — the ordering among ties is unspecified upstream). -/
def activePolicyRow (s : Store) : Option PolicyRow :=
  (s.policies.filter (·.active)).foldl
    (fun acc p => match acc with
      | none => some p
      | some q => if p.effective_date > q.effective_date then some p else some q)
    none

/-- `fetch_active_policy`: the snapshot dict
`{"policy_version": v, **policy_data}`, or the synthetic
`{"policy_version": "none", "rules": {}}` when no active row exists. -/
def fetch_active_policy (s : Store) : JVal :=
  match activePolicyRow s with
  | some p =>
      .obj (p.policy_data.foldl (fun acc kv => dictInsert acc kv.1 kv.2)
        [("policy_version", .str p.policy_version)])
  | none => .obj [("policy_version", .str "none"), ("rules", .obj [])]

/-- `fetch_priority_weights`: the active weight rows. -/
def fetch_priority_weights (s : Store) : List WeightRow :=
  s.weights.filter (·.active)

/-- `task.get('enriched_fields', {}).get('expected_completion_date')`:
the inner `.get` is a dict method, so a present non-dict value raises. -/
def enrichedExpected (task : JVal) : Except PipeError JVal :=
  match task.getD "enriched_fields" (.obj []) with
  | .obj kvs => .ok ((JVal.obj kvs).getD "expected_completion_date" .null)
  | _ => .error (.pipelineError "enriched_fields not a dict")

/-- `task[k]`: KeyError (→ generic pipeline error) when absent. -/
def requireKey (task : JVal) (k : String) : Except PipeError JVal :=
  match task.getKey? k with
  | some v => .ok v
  | none => .error (.pipelineError ("KeyError " ++ k))

/-- The INSERT's bound columns, computed from the task dict alone (`.get`
for optional columns, `[...]` for required ones); the generated id is
independent of them. -/
def buildTaskCols (task : JVal) (transcript_id : Option Int) :
    Except PipeError (Int → TaskRow) :=
  match requireKey task "description" with
  | .error e => .error e
  | .ok desc =>
    match enrichedExpected task with
    | .error e => .error e
    | .ok expected =>
      match requireKey task "priority_score" with
      | .error e => .error e
      | .ok score =>
        match requireKey task "priority_level" with
        | .error e => .error e
        | .ok level =>
          match requireKey task "lineage_metadata" with
          | .error e => .error e
          | .ok lineage =>
            match requireKey task "qa_metadata" with
            | .error e => .error e
            | .ok qaMeta =>
              match requireKey task "prioritization_metadata" with
              | .error e => .error e
              | .ok prioMeta =>
                .ok (fun tid =>
                  { task_id := tid
                    transcript_id := transcript_id
                    participant_id := task.getD "participant_id" .null
                    patient_id := task.getD "patient_id" .null
                    category_id := task.getD "category_id" .null
                    description := desc
                    due_date := task.getD "due_date" .null
                    expected_completion_date := expected
                    priority_score := score
                    priority_level := level
                    source_spans := task.getD "source_spans" (.obj [])
                    enriched_fields := task.getD "enriched_fields" (.obj [])
                    score_breakdown := task.getD "score_breakdown" (.obj [])
                    lineage_metadata := lineage
                    qa_metadata := qaMeta
                    prioritization_metadata := prioMeta
                    status := "pending" })

/-- `save_task_to_db`: one INSERT returning the generated id; the row is
built from the task dict and the literal `'pending'` status, the id is
the next value of the `tasks` id sequence. -/
def save_task_to_db (task : JVal) (transcript_id : Option Int) (s : Store) :
    Except PipeError (Int × Store) :=
  match buildTaskCols task transcript_id with
  | .error e => .error e
  | .ok row =>
      .ok (s.next_task_id,
           { s with tasks := s.tasks ++ [row s.next_task_id]
                    next_task_id := s.next_task_id + 1 })

/-! ## Pipeline state and per-run environment -/

/-- `PipelineState`: the TypedDict threaded through the graph.  Python's
`None` and JSON `null` both serialize to `null`, so the `rejection_*`
slots (set via `.get`, which may yield either) are a single `JVal` with
`.null` as the unset value; the truly optional payload slots keep
`Option`. -/
structure PipelineState where
  transcript : String
  transcript_id : Option Int
  db_context : DbContext
  policy_snapshot : JVal
  priority_weights : List WeightRow
  extracted_task : Option JVal
  normalized_task : Option JVal
  qa_result : Option JVal
  final_task : Option JVal
  rejection_reason : JVal
  rejection_category : JVal
  lineage_metadata : JVal
  saved_task_id : Option Int
  status : String

/-- The per-run external inputs: the generation service's reply to each
stage's prompt, and the `datetime.utcnow().isoformat()` values read in
the two stages that record timestamps. -/
structure Env where
  extraction_reply : Reply
  normalization_reply : Reply
  qa_reply : Reply
  prioritization_reply : Reply
  extraction_ts : String
  normalization_ts : String

/-- `state['final_task']` (or any other optional slot) read as a Python
value: `None` when unset. -/
def optJVal : Option JVal → JVal
  | none => .null
  | some v => v

/-- An id column read as a Python value. -/
def optIdJVal : Option Int → JVal
  | none => .null
  | some n => .num n

/-! ## Agent nodes -/

/-- The provenance record each of the first two stages appends:
`{agent_name, agent_version, policy_version, timestamp}`. -/
def lineageEntry (agent : String) (policy_version : JVal) (ts : String) : JVal :=
  .obj [("agent_name", .str agent),
        ("agent_version", .str "1.0.0"),
        ("policy_version", policy_version),
        ("timestamp", .str ts)]

/-- `payload['lineage_metadata']['processing_chain'].append(entry)`:
fails (KeyError/TypeError) unless the payload is a dict holding a
`lineage_metadata` dict with a `processing_chain` list. -/
def appendToChain (payload entry : JVal) : Except PipeError JVal :=
  match requireKey payload "lineage_metadata" with
  | .error e => .error e
  | .ok lm =>
    match requireKey lm "processing_chain" with
    | .error e => .error e
    | .ok chain =>
      match chain with
      | .arr xs =>
          match lm.setKey "processing_chain" (.arr (xs ++ [entry])) with
          | some lm2 =>
              match payload.setKey "lineage_metadata" lm2 with
              | some p => .ok p
              | none => .error (.pipelineError "payload not a dict")
          | none => .error (.pipelineError "lineage_metadata not a dict")
      | _ => .error (.pipelineError "processing_chain not a list")

/-- `if 'lineage_metadata' not in extracted:` — initialize an empty
processing chain on the freshly parsed extraction payload. -/
def initLineage (extracted : JVal) : Except PipeError JVal :=
  if extracted.hasKey "lineage_metadata" then .ok extracted
  else
    match extracted.setKey "lineage_metadata"
        (.obj [("processing_chain", .arr [])]) with
    | some v => .ok v
    | none => .error (.pipelineError "extracted not a dict")

/-- `extraction_node`: parse the reply, initialize
`lineage_metadata.processing_chain` when absent, append the extraction
provenance record, store the result in `extracted_task`. -/
def extraction_node (env : Env) (s : PipelineState) :
    Except PipeError PipelineState :=
  match parseReply "extraction" env.extraction_reply with
  | .error e => .error e
  | .ok extracted0 =>
    match initLineage extracted0 with
    | .error e => .error e
    | .ok extracted1 =>
      match requireKey s.policy_snapshot "policy_version" with
      | .error e => .error e
      | .ok pv =>
        match appendToChain extracted1
            (lineageEntry "extraction" pv env.extraction_ts) with
        | .error e => .error e
        | .ok extracted2 => .ok { s with extracted_task := some extracted2 }

/-- `normalization_node`: parse the reply, append the normalization
provenance record to the reply's own chain (KeyError if the reply did
not carry one), store the result in `normalized_task`. -/
def normalization_node (env : Env) (s : PipelineState) :
    Except PipeError PipelineState :=
  match parseReply "normalization" env.normalization_reply with
  | .error e => .error e
  | .ok normalized0 =>
    match requireKey s.policy_snapshot "policy_version" with
    | .error e => .error e
    | .ok pv =>
      match appendToChain normalized0
          (lineageEntry "normalization" pv env.normalization_ts) with
      | .error e => .error e
      | .ok normalized1 => .ok { s with normalized_task := some normalized1 }

/-- `qa_node`: parse the reply; on `qa_decision == 'rejected'` set the
rejection fields and the `rejected` status, otherwise adopt
`validated_task` (default: the normalized payload) as `final_task` and
set its `qa_metadata` (default `{}`). -/
def qa_node (env : Env) (s : PipelineState) :
    Except PipeError PipelineState :=
  match parseReply "qa" env.qa_reply with
  | .error e => .error e
  | .ok qa =>
    if (qa.getD "qa_decision" .null).isStr "rejected" then
      .ok { s with
        qa_result := some qa
        rejection_reason := qa.getD "rejection_reason" .null
        rejection_category := qa.getD "rejection_category" .null
        status := "rejected" }
    else
      match (qa.getD "validated_task" (optJVal s.normalized_task)).setKey
          "qa_metadata" (qa.getD "qa_metadata" (.obj [])) with
      | some final => .ok { s with qa_result := some qa, final_task := some final }
      | none => .error (.pipelineError "final_task not a dict")

/-- `prioritization_node`: parse the reply, overwrite `final_task` with
it and mark the run `completed`. -/
def prioritization_node (env : Env) (s : PipelineState) :
    Except PipeError PipelineState :=
  match parseReply "prioritization" env.prioritization_reply with
  | .error e => .error e
  | .ok prioritized =>
      .ok { s with final_task := some prioritized, status := "completed" }

/-- `save_node`: persist `final_task`, record the generated id. -/
def save_node (s : PipelineState) (store : Store) :
    Except PipeError (PipelineState × Store) :=
  match save_task_to_db (optJVal s.final_task) s.transcript_id store with
  | .error e => .error e
  | .ok r => .ok ({ s with saved_task_id := some r.1 }, r.2)

/-- `rejection_node`: a no-op (it only logs). -/
def rejection_node (s : PipelineState) : PipelineState := s

/-- `qa_router`: conditional edge after QA. -/
def qa_router (s : PipelineState) : String :=
  if s.status == "rejected" then "rejection" else "prioritization"

/-! ## Graph execution (`build_pipeline_graph().invoke`) -/

/-- One `graph.invoke(initial_state)`: extraction → normalization → qa,
then via `qa_router` either rejection or prioritization → save; any
exception aborts the whole invocation. -/
def runGraph (env : Env) (store : Store) (s : PipelineState) :
    Except PipeError (PipelineState × Store) :=
  match extraction_node env s with
  | .error e => .error e
  | .ok s1 =>
    match normalization_node env s1 with
    | .error e => .error e
    | .ok s2 =>
      match qa_node env s2 with
      | .error e => .error e
      | .ok s3 =>
        if qa_router s3 == "rejection" then
          .ok (rejection_node s3, store)
        else
          match prioritization_node env s3 with
          | .error e => .error e
          | .ok s4 => save_node s4 store

/-- The initial state built at the top of `run_pipeline`: the three
store fetches happen here and only here. -/
def initialState (transcript : String) (transcript_id : Option Int)
    (store : Store) : PipelineState :=
  { transcript := transcript
    transcript_id := transcript_id
    db_context := fetch_db_context store
    policy_snapshot := fetch_active_policy store
    priority_weights := fetch_priority_weights store
    extracted_task := none
    normalized_task := none
    qa_result := none
    final_task := none
    rejection_reason := .null
    rejection_category := .null
    lineage_metadata := .obj []
    saved_task_id := none
    status := "pending" }

/-- The result dict `run_pipeline` returns from the final state. -/
def pipelineResult (s : PipelineState) : JVal :=
  if s.status == "rejected" then
    .obj [("status", .str "rejected"),
          ("rejection_reason", s.rejection_reason),
          ("rejection_category", s.rejection_category)]
  else
    .obj [("status", .str "completed"),
          ("task_id", optIdJVal s.saved_task_id),
          ("task", optJVal s.final_task)]

/-- `run_pipeline`: fetch the snapshots, run the graph, project the
result dict; also returns the store as the run leaves it. -/
def run_pipeline (env : Env) (store : Store) (transcript : String)
    (transcript_id : Option Int) : Except PipeError (JVal × Store) :=
  match runGraph env store (initialState transcript transcript_id store) with
  | .error e => .error e
  | .ok (s, store2) => .ok (pipelineResult s, store2)

/-- `run_pipeline` against a store that is mutated by `mutate` after the
initial fetches and before the stages (and hence before the final
write) execute: the interleaving in which another writer commits
mid-run. -/
def run_pipeline_midMutation (env : Env) (store : Store)
    (mutate : Store → Store) (transcript : String)
    (transcript_id : Option Int) : Except PipeError (JVal × Store) :=
  match runGraph env (mutate store)
      (initialState transcript transcript_id store) with
  | .error e => .error e
  | .ok (s, store2) => .ok (pipelineResult s, store2)

/-- The lineage chain embedded in a task payload, when well-formed. -/
def chainOf (v : JVal) : Option (List JVal) :=
  match v.getKey? "lineage_metadata" with
  | some lm =>
      match lm.getKey? "processing_chain" with
      | some (.arr xs) => some xs
      | _ => none
  | none => none

/-! ## Concrete run fixtures (used to instantiate the theorems) -/

/-- A transcript (the repository's own sample). -/
def testTranscript : String :=
  "Dr. Chen here. I need to review Maria Garcia's medications ASAP."

/-- A small store: one active row per grounding table, one active policy
(version `v1`), an empty `tasks` table. -/
def testStore : Store :=
  { participants := [⟨1, "Dr. Chen", "physician", "cardiology", true⟩]
    patients := [⟨7, "Maria Garcia", "MRN005678", true, false, true⟩]
    categories := [⟨3, "medication_review", "Review medications", true, true, true⟩]
    slas := [⟨3, 24, 48⟩]
    policies := [⟨"v1", [("rules", .obj [])], true, 10⟩]
    weights := [⟨"urgency", "time", 5, "urgency factor", true⟩]
    tasks := []
    next_task_id := 1 }

/-- An extraction reply: a fresh payload, no lineage of its own. -/
def extractionReplyVal : JVal :=
  .obj [("description", .str "Review medications"),
        ("participant_id", .num 1),
        ("patient_id", .num 7)]

/-- The extraction stage's output on `extractionReplyVal` under policy
`v1` and timestamp `t1`. -/
def extractedOutVal : JVal :=
  .obj [("description", .str "Review medications"),
        ("participant_id", .num 1),
        ("patient_id", .num 7),
        ("lineage_metadata", .obj [("processing_chain",
          .arr [lineageEntry "extraction" (.str "v1") "t1"])])]

/-- A normalization reply that faithfully echoes the extraction output's
fields and lineage chain. -/
def normalizationReplyVal : JVal :=
  .obj [("description", .str "Review medications"),
        ("participant_id", .num 1),
        ("patient_id", .num 7),
        ("lineage_metadata", .obj [("processing_chain",
          .arr [lineageEntry "extraction" (.str "v1") "t1"])])]

/-- A normalization reply that echoes the lineage chain but drops the
`description` field of the extraction output. -/
def normalizationReplyDropVal : JVal :=
  .obj [("participant_id", .num 1),
        ("patient_id", .num 7),
        ("lineage_metadata", .obj [("processing_chain",
          .arr [lineageEntry "extraction" (.str "v1") "t1"])])]

/-- A QA reply that rejects. -/
def qaRejectReplyVal : JVal :=
  .obj [("qa_decision", .str "rejected"),
        ("rejection_reason", .str "missing due date"),
        ("rejection_category", .str "missing_data")]

/-- A QA reply whose verdict is neither sentinel. -/
def qaMaybeReplyVal : JVal :=
  .obj [("qa_decision", .str "maybe")]

/-- A QA reply that accepts, carrying neither `validated_task` nor
`qa_metadata`. -/
def qaAcceptBareReplyVal : JVal :=
  .obj [("qa_decision", .str "accepted")]

/-- A prioritization reply holding every column `save_task_to_db`
requires. -/
def prioritizationReplyVal : JVal :=
  .obj [("description", .str "Review medications"),
        ("priority_score", .num 87),
        ("priority_level", .str "urgent"),
        ("lineage_metadata", .obj [("processing_chain", .arr [])]),
        ("qa_metadata", .obj []),
        ("prioritization_metadata", .obj [])]

/-- A run the QA stage rejects; every reply well-formed. -/
def envReject : Env :=
  { extraction_reply := .parsed extractionReplyVal
    normalization_reply := .parsed normalizationReplyVal
    qa_reply := .parsed qaRejectReplyVal
    prioritization_reply := .parsed prioritizationReplyVal
    extraction_ts := "t1"
    normalization_ts := "t2" }

/-- Same run, but the QA verdict is the off-sentinel `"maybe"`. -/
def envMaybe : Env :=
  { envReject with qa_reply := .parsed qaMaybeReplyVal }

/-- Same run, but QA accepts with a bare reply. -/
def envAcceptBare : Env :=
  { envReject with qa_reply := .parsed qaAcceptBareReplyVal }

/-- Same run, but the normalization reply drops a field. -/
def envDropField : Env :=
  { envReject with normalization_reply := .parsed normalizationReplyDropVal }

/-- Same run, but the normalization reply fails to parse. -/
def envMalformedNorm : Env :=
  { envReject with normalization_reply := .malformed "not json" }

/-- A store mutation touching only grounding tables: deactivates every
participant and swaps in a fresh policy version. -/
def groundingMutation (s : Store) : Store :=
  { s with participants := s.participants.map (fun p => { p with active := false })
           policies := ⟨"v2", [("rules", .obj [])], true, 99⟩ :: s.policies }

/-- The initial state of a run on `testStore`. -/
def s0Test : PipelineState := initialState testTranscript none testStore

/-- The normalization stage's output on `normalizationReplyVal`: the
echoed chain extended with the normalization record. -/
def normalizedOutVal : JVal :=
  .obj [("description", .str "Review medications"),
        ("participant_id", .num 1),
        ("patient_id", .num 7),
        ("lineage_metadata", .obj [("processing_chain",
          .arr [lineageEntry "extraction" (.str "v1") "t1",
                lineageEntry "normalization" (.str "v1") "t2"])])]

/-- The final pipeline state of the `envReject` run. -/
def rejectedStateVal : PipelineState :=
  { s0Test with
    extracted_task := some extractedOutVal
    normalized_task := some normalizedOutVal
    qa_result := some qaRejectReplyVal
    rejection_reason := .str "missing due date"
    rejection_category := .str "missing_data"
    status := "rejected" }

/-- The state `qa_node` leaves after rejecting from the initial state. -/
def s0TestQA : PipelineState :=
  { s0Test with
    qa_result := some qaRejectReplyVal
    rejection_reason := .str "missing due date"
    rejection_category := .str "missing_data"
    status := "rejected" }

/-- The result dict of the `envReject` run. -/
def rejResVal : JVal :=
  .obj [("status", .str "rejected"),
        ("rejection_reason", .str "missing due date"),
        ("rejection_category", .str "missing_data")]

/-- A state holding the extraction and normalization outputs, as QA sees
it. -/
def sNormTest : PipelineState :=
  { s0Test with extracted_task := some extractedOutVal
                normalized_task := some normalizedOutVal }

/-- `normalizedOutVal` with the defaulted empty `qa_metadata` attached. -/
def finalBareVal : JVal :=
  .obj [("description", .str "Review medications"),
        ("participant_id", .num 1),
        ("patient_id", .num 7),
        ("lineage_metadata", .obj [("processing_chain",
          .arr [lineageEntry "extraction" (.str "v1") "t1",
                lineageEntry "normalization" (.str "v1") "t2"])]),
        ("qa_metadata", .obj [])]

/-- The state after the extraction stage of a `testStore` run. -/
def s1ExtractedTest : PipelineState :=
  { s0Test with extracted_task := some extractedOutVal }

/-- `testStore` with every policy row removed. -/
def noPolicyStore : Store := { testStore with policies := [] }

/-- The extraction output under the synthetic `"none"` policy. -/
def extractedOutNoneVal : JVal :=
  .obj [("description", .str "Review medications"),
        ("participant_id", .num 1),
        ("patient_id", .num 7),
        ("lineage_metadata", .obj [("processing_chain",
          .arr [lineageEntry "extraction" (.str "none") "t1"])])]

/-- The state after the extraction stage of a `noPolicyStore` run. -/
def s1NonePolicyTest : PipelineState :=
  { initialState testTranscript none noPolicyStore with
      extracted_task := some extractedOutNoneVal }

/-- The store after one successful save of `prioritizationReplyVal`. -/
def savedOnceStore : Store :=
  match save_task_to_db prioritizationReplyVal none testStore with
  | .ok r => r.2
  | .error _ => testStore

/-! ## Helper lemmas: dict operations -/

theorem requireKey_ok_iff {task : JVal} {k : String} {v : JVal} :
    requireKey task k = .ok v ↔ task.getKey? k = some v := by
  unfold requireKey
  cases h : task.getKey? k <;> simp

theorem JVal.getD_of_getKey? {v : JVal} {k : String} {x d : JVal}
    (h : v.getKey? k = some x) : v.getD k d = x := by
  unfold JVal.getD
  rw [h]
  rfl

theorem JVal.getD_of_hasKey_false {v : JVal} {k : String} {d : JVal}
    (h : v.hasKey k = false) : v.getD k d = d := by
  unfold JVal.hasKey at h
  unfold JVal.getD
  cases hk : v.getKey? k with
  | none => rfl
  | some x => rw [hk] at h; simp at h

theorem beq_symm_false {a b : String} (h : (a == b) = false) :
    (b == a) = false :=
  beq_eq_false_iff_ne.mpr (Ne.symm (beq_eq_false_iff_ne.mp h))

theorem find?_kvs_cons_pos (hd : String × JVal) (tl : List (String × JVal))
    (k : String) (h : (hd.1 == k) = true) :
    (hd :: tl).find? (fun kv => kv.1 == k) = some hd := by
  simp [List.find?, h]

theorem find?_kvs_cons_neg (hd : String × JVal) (tl : List (String × JVal))
    (k : String) (h : (hd.1 == k) = false) :
    (hd :: tl).find? (fun kv => kv.1 == k) = tl.find? (fun kv => kv.1 == k) := by
  simp [List.find?, h]

theorem find?_map_set_self (kvs : List (String × JVal)) (k : String) (x : JVal)
    (h : kvs.any (fun kv => kv.1 == k) = true) :
    (kvs.map (fun kv => if kv.1 == k then (k, x) else kv)).find?
      (fun kv => kv.1 == k) = some (k, x) := by
  induction kvs with
  | nil => simp at h
  | cons hd tl ih =>
    rw [List.map_cons]
    by_cases hk : (hd.1 == k) = true
    · rw [if_pos hk]
      exact find?_kvs_cons_pos (k, x) _ k (by simp)
    · have hkf : (hd.1 == k) = false := by
        cases hv : (hd.1 == k) with
        | false => rfl
        | true => exact absurd hv hk
      rw [if_neg hk, find?_kvs_cons_neg hd _ k hkf]
      apply ih
      rw [List.any_cons, hkf, Bool.false_or] at h
      exact h

theorem find?_map_set_ne (kvs : List (String × JVal)) (k k' : String) (x : JVal)
    (hne : (k' == k) = false) :
    (kvs.map (fun kv => if kv.1 == k then (k, x) else kv)).find?
      (fun kv => kv.1 == k') = kvs.find? (fun kv => kv.1 == k') := by
  have hkk' : (k == k') = false := beq_symm_false hne
  induction kvs with
  | nil => rfl
  | cons hd tl ih =>
    rw [List.map_cons]
    by_cases hk : (hd.1 == k) = true
    · have e1 : hd.1 = k := eq_of_beq hk
      have hR : (hd.1 == k') = false := by rw [e1]; exact hkk'
      rw [if_pos hk,
          find?_kvs_cons_neg (k, x) _ k' (by rw [show ((k, x).1 == k') = (k == k') from rfl]; exact hkk'),
          find?_kvs_cons_neg hd _ k' hR]
      exact ih
    · rw [if_neg hk]
      cases hv : (hd.1 == k') with
      | true =>
        rw [find?_kvs_cons_pos hd _ k' hv, find?_kvs_cons_pos hd _ k' hv]
      | false =>
        rw [find?_kvs_cons_neg hd _ k' hv, find?_kvs_cons_neg hd _ k' hv]
        exact ih

theorem find?_append_absent (kvs : List (String × JVal)) (k : String) (x : JVal)
    (h : kvs.any (fun kv => kv.1 == k) = false) :
    (kvs ++ [(k, x)]).find? (fun kv => kv.1 == k) = some (k, x) := by
  induction kvs with
  | nil =>
    rw [List.nil_append]
    exact find?_kvs_cons_pos (k, x) _ k (by simp)
  | cons hd tl ih =>
    rw [List.any_cons, Bool.or_eq_false_iff] at h
    rw [List.cons_append, find?_kvs_cons_neg hd _ k h.1]
    exact ih h.2

theorem find?_append_other (kvs : List (String × JVal)) (k k' : String) (x : JVal)
    (hne : (k' == k) = false) :
    (kvs ++ [(k, x)]).find? (fun kv => kv.1 == k') =
      kvs.find? (fun kv => kv.1 == k') := by
  have hkk' : (k == k') = false := beq_symm_false hne
  induction kvs with
  | nil =>
    rw [List.nil_append,
        find?_kvs_cons_neg (k, x) _ k' (by rw [show ((k, x).1 == k') = (k == k') from rfl]; exact hkk')]
  | cons hd tl ih =>
    rw [List.cons_append]
    cases hv : (hd.1 == k') with
    | true =>
      rw [find?_kvs_cons_pos hd _ k' hv, find?_kvs_cons_pos hd _ k' hv]
    | false =>
      rw [find?_kvs_cons_neg hd _ k' hv, find?_kvs_cons_neg hd _ k' hv]
      exact ih

theorem JVal.getKey?_setKey_self {v : JVal} {k : String} {x w : JVal}
    (h : v.setKey k x = some w) : w.getKey? k = some x := by
  cases v with
  | obj kvs =>
    simp only [JVal.setKey] at h
    by_cases ha : kvs.any (fun kv => kv.1 == k) = true
    · rw [if_pos ha] at h
      cases h
      simp only [JVal.getKey?]
      rw [find?_map_set_self kvs k x ha]
      rfl
    · rw [if_neg ha] at h
      cases h
      have haf : kvs.any (fun kv => kv.1 == k) = false := by
        cases hv : kvs.any (fun kv => kv.1 == k) with
        | false => rfl
        | true => exact absurd hv ha
      simp only [JVal.getKey?]
      rw [find?_append_absent kvs k x haf]
      rfl
  | null => simp [JVal.setKey] at h
  | bool b => simp [JVal.setKey] at h
  | num n => simp [JVal.setKey] at h
  | str s => simp [JVal.setKey] at h
  | arr xs => simp [JVal.setKey] at h

theorem JVal.getKey?_setKey_ne {v : JVal} {k k' : String} {x w : JVal}
    (h : v.setKey k x = some w) (hne : (k' == k) = false) :
    w.getKey? k' = v.getKey? k' := by
  cases v with
  | obj kvs =>
    simp only [JVal.setKey] at h
    by_cases ha : kvs.any (fun kv => kv.1 == k) = true
    · rw [if_pos ha] at h
      cases h
      simp only [JVal.getKey?]
      rw [find?_map_set_ne kvs k k' x hne]
    · rw [if_neg ha] at h
      cases h
      simp only [JVal.getKey?]
      rw [find?_append_other kvs k k' x hne]
  | null => simp [JVal.setKey] at h
  | bool b => simp [JVal.setKey] at h
  | num n => simp [JVal.setKey] at h
  | str s => simp [JVal.setKey] at h
  | arr xs => simp [JVal.setKey] at h

/-! ## Helper lemmas: inversion of the stages -/

theorem appendToChain_ok {payload entry p : JVal}
    (h : appendToChain payload entry = .ok p) :
    ∃ xs, chainOf payload = some xs ∧ chainOf p = some (xs ++ [entry]) ∧
      (∀ k, (k == "lineage_metadata") = false →
        p.getKey? k = payload.getKey? k) := by
  unfold appendToChain at h
  cases h1 : requireKey payload "lineage_metadata" with
  | error e => simp only [h1] at h; cases h
  | ok lm =>
    simp only [h1] at h
    cases h2 : requireKey lm "processing_chain" with
    | error e => simp only [h2] at h; cases h
    | ok chain =>
      simp only [h2] at h
      cases chain with
      | arr xs =>
        simp only [] at h
        cases h3 : lm.setKey "processing_chain" (.arr (xs ++ [entry])) with
        | none => simp only [h3] at h; cases h
        | some lm2 =>
          simp only [h3] at h
          cases h4 : payload.setKey "lineage_metadata" lm2 with
          | none => simp only [h4] at h; cases h
          | some p2 =>
            simp only [h4] at h
            cases h
            refine ⟨xs, ?_, ?_, ?_⟩
            · simp only [chainOf, requireKey_ok_iff.mp h1,
                requireKey_ok_iff.mp h2]
            · simp only [chainOf, JVal.getKey?_setKey_self h4,
                JVal.getKey?_setKey_self h3]
            · intro k hk
              exact JVal.getKey?_setKey_ne h4 hk
      | null => cases h
      | bool b => cases h
      | num n => cases h
      | str t => cases h
      | obj kvs => cases h

theorem extraction_node_ok {env : Env} {s s' : PipelineState}
    (h : extraction_node env s = .ok s') :
    ∃ er e1 pv v, env.extraction_reply = .parsed er ∧
      initLineage er = .ok e1 ∧
      requireKey s.policy_snapshot "policy_version" = .ok pv ∧
      appendToChain e1 (lineageEntry "extraction" pv env.extraction_ts) = .ok v ∧
      s' = { s with extracted_task := some v } := by
  unfold extraction_node at h
  cases hr : env.extraction_reply with
  | malformed r => simp only [hr, parseReply] at h; cases h
  | parsed er =>
    simp only [hr, parseReply] at h
    cases h1 : initLineage er with
    | error e => simp only [h1] at h; cases h
    | ok e1 =>
      simp only [h1] at h
      cases h2 : requireKey s.policy_snapshot "policy_version" with
      | error e => simp only [h2] at h; cases h
      | ok pv =>
        simp only [h2] at h
        cases h3 : appendToChain e1
            (lineageEntry "extraction" pv env.extraction_ts) with
        | error e => simp only [h3] at h; cases h
        | ok v =>
          simp only [h3] at h
          cases h
          exact ⟨er, e1, pv, v, rfl, h1, rfl, h3, rfl⟩

theorem normalization_node_ok {env : Env} {s s' : PipelineState}
    (h : normalization_node env s = .ok s') :
    ∃ nr pv v, env.normalization_reply = .parsed nr ∧
      requireKey s.policy_snapshot "policy_version" = .ok pv ∧
      appendToChain nr (lineageEntry "normalization" pv env.normalization_ts) = .ok v ∧
      s' = { s with normalized_task := some v } := by
  unfold normalization_node at h
  cases hr : env.normalization_reply with
  | malformed r => simp only [hr, parseReply] at h; cases h
  | parsed nr =>
    simp only [hr, parseReply] at h
    cases h2 : requireKey s.policy_snapshot "policy_version" with
    | error e => simp only [h2] at h; cases h
    | ok pv =>
      simp only [h2] at h
      cases h3 : appendToChain nr
          (lineageEntry "normalization" pv env.normalization_ts) with
      | error e => simp only [h3] at h; cases h
      | ok v =>
        simp only [h3] at h
        cases h
        exact ⟨nr, pv, v, rfl, rfl, h3, rfl⟩

theorem qa_node_ok {env : Env} {s s' : PipelineState}
    (h : qa_node env s = .ok s') :
    ∃ qa, env.qa_reply = .parsed qa ∧
      (((qa.getD "qa_decision" .null).isStr "rejected" = true ∧
        s' = { s with qa_result := some qa
                      rejection_reason := qa.getD "rejection_reason" .null
                      rejection_category := qa.getD "rejection_category" .null
                      status := "rejected" }) ∨
       ((qa.getD "qa_decision" .null).isStr "rejected" = false ∧
        ∃ final, (qa.getD "validated_task" (optJVal s.normalized_task)).setKey
            "qa_metadata" (qa.getD "qa_metadata" (.obj [])) = some final ∧
          s' = { s with qa_result := some qa, final_task := some final })) := by
  unfold qa_node at h
  cases hr : env.qa_reply with
  | malformed r => simp only [hr, parseReply] at h; cases h
  | parsed qa =>
    simp only [hr, parseReply] at h
    by_cases hd : ((qa.getD "qa_decision" .null).isStr "rejected") = true
    · rw [if_pos hd] at h
      cases h
      exact ⟨qa, rfl, .inl ⟨hd, rfl⟩⟩
    · have hdf : ((qa.getD "qa_decision" .null).isStr "rejected") = false := by
        cases hv : ((qa.getD "qa_decision" .null).isStr "rejected") with
        | false => rfl
        | true => exact absurd hv hd
      rw [if_neg hd] at h
      cases h4 : (qa.getD "validated_task" (optJVal s.normalized_task)).setKey
          "qa_metadata" (qa.getD "qa_metadata" (.obj [])) with
      | none => simp only [h4] at h; cases h
      | some final =>
        simp only [h4] at h
        cases h
        exact ⟨qa, rfl, .inr ⟨hdf, final, h4, rfl⟩⟩

theorem prioritization_node_ok {env : Env} {s s' : PipelineState}
    (h : prioritization_node env s = .ok s') :
    ∃ pr, env.prioritization_reply = .parsed pr ∧
      s' = { s with final_task := some pr, status := "completed" } := by
  unfold prioritization_node at h
  cases hr : env.prioritization_reply with
  | malformed r => simp only [hr, parseReply] at h; cases h
  | parsed pr =>
    simp only [hr, parseReply] at h
    cases h
    exact ⟨pr, rfl, rfl⟩

theorem save_node_ok {s : PipelineState} {store : Store} {p : PipelineState}
    {store2 : Store} (h : save_node s store = .ok (p, store2)) :
    ∃ i, save_task_to_db (optJVal s.final_task) s.transcript_id store =
        .ok (i, store2) ∧
      p = { s with saved_task_id := some i } := by
  unfold save_node at h
  cases hv : save_task_to_db (optJVal s.final_task) s.transcript_id store with
  | error e => simp only [hv] at h; cases h
  | ok r =>
    simp only [hv] at h
    cases r with
    | mk i st2 =>
      cases h
      exact ⟨i, rfl, rfl⟩

theorem save_task_to_db_shape (task : JVal) (tid : Option Int) (s : Store) :
    (∃ e, save_task_to_db task tid s = .error e ∧
      buildTaskCols task tid = .error e) ∨
    (∃ row, buildTaskCols task tid = .ok row ∧
      save_task_to_db task tid s =
        .ok (s.next_task_id,
             { s with tasks := s.tasks ++ [row s.next_task_id]
                      next_task_id := s.next_task_id + 1 })) := by
  cases hb : buildTaskCols task tid with
  | error e =>
    refine .inl ⟨e, ?_, rfl⟩
    unfold save_task_to_db
    rw [hb]
  | ok row =>
    refine .inr ⟨row, rfl, ?_⟩
    unfold save_task_to_db
    rw [hb]

theorem runGraph_shape {env : Env} {store : Store} {s0 p : PipelineState}
    {store2 : Store} (h : runGraph env store s0 = .ok (p, store2)) :
    ∃ s1 s2 s3, extraction_node env s0 = .ok s1 ∧
      normalization_node env s1 = .ok s2 ∧
      qa_node env s2 = .ok s3 ∧
      ((s3.status = "rejected" ∧ p = s3 ∧ store2 = store) ∨
       (s3.status ≠ "rejected" ∧ p.status = "completed" ∧
        ∃ s4, prioritization_node env s3 = .ok s4 ∧
          save_node s4 store = .ok (p, store2))) := by
  unfold runGraph at h
  cases hE : extraction_node env s0 with
  | error e => simp only [hE] at h; cases h
  | ok s1 =>
    simp only [hE] at h
    cases hN : normalization_node env s1 with
    | error e => simp only [hN] at h; cases h
    | ok s2 =>
      simp only [hN] at h
      cases hQ : qa_node env s2 with
      | error e => simp only [hQ] at h; cases h
      | ok s3 =>
        simp only [hQ] at h
        by_cases hst : (s3.status == "rejected") = true
        · have hrt : (qa_router s3 == "rejection") = true := by
            unfold qa_router
            rw [if_pos hst]
            decide
          rw [if_pos hrt] at h
          cases h
          exact ⟨s1, s2, s3, rfl, hN, hQ, .inl ⟨eq_of_beq hst, rfl, rfl⟩⟩
        · have hstf : (s3.status == "rejected") = false := by
            cases hv : (s3.status == "rejected") with
            | false => rfl
            | true => exact absurd hv hst
          have hrf : ¬((qa_router s3 == "rejection") = true) := by
            unfold qa_router
            rw [if_neg hst]
            decide
          rw [if_neg hrf] at h
          cases hP : prioritization_node env s3 with
          | error e => simp only [hP] at h; cases h
          | ok s4 =>
            simp only [hP] at h
            have hne : s3.status ≠ "rejected" := beq_eq_false_iff_ne.mp hstf
            obtain ⟨pr, _, hs4⟩ := prioritization_node_ok hP
            obtain ⟨i, _, hp⟩ := save_node_ok h
            refine ⟨s1, s2, s3, rfl, hN, hQ, .inr ⟨hne, ?_, s4, hP, h⟩⟩
            rw [hp, hs4]

theorem pipelineResult_rejected {s : PipelineState} (h : s.status = "rejected") :
    pipelineResult s = .obj [("status", .str "rejected"),
      ("rejection_reason", s.rejection_reason),
      ("rejection_category", s.rejection_category)] := by
  unfold pipelineResult
  rw [h]
  rfl

theorem pipelineResult_completed {s : PipelineState} (h : s.status = "completed") :
    pipelineResult s = .obj [("status", .str "completed"),
      ("task_id", optIdJVal s.saved_task_id),
      ("task", optJVal s.final_task)] := by
  unfold pipelineResult
  rw [h]
  rfl

theorem run_pipeline_of_runGraph {env : Env} {store : Store} {t : String}
    {tid : Option Int} {p : PipelineState} {store2 : Store}
    (h : runGraph env store (initialState t tid store) = .ok (p, store2)) :
    run_pipeline env store t tid = .ok (pipelineResult p, store2) := by
  unfold run_pipeline
  rw [h]

theorem run_pipeline_error_of_runGraph {env : Env} {store : Store} {t : String}
    {tid : Option Int} {e : PipeError}
    (h : runGraph env store (initialState t tid store) = .error e) :
    run_pipeline env store t tid = .error e := by
  unfold run_pipeline
  rw [h]

theorem run_pipeline_ok_inv {env : Env} {store : Store} {t : String}
    {tid : Option Int} {res : JVal} {store2 : Store}
    (h : run_pipeline env store t tid = .ok (res, store2)) :
    ∃ p, runGraph env store (initialState t tid store) = .ok (p, store2) ∧
      res = pipelineResult p := by
  unfold run_pipeline at h
  cases hg : runGraph env store (initialState t tid store) with
  | error e => simp only [hg] at h; cases h
  | ok r =>
    cases r with
    | mk p st =>
      simp only [hg] at h
      cases h
      exact ⟨p, rfl, rfl⟩

/-! ## Claim theorems -/

/-- C3: for every transcript (and every store, service-reply sequence and
timestamp choice), `run_pipeline` yields exactly one of the three
outcomes: a system error, a rejected result carrying `rejection_reason`
and `rejection_category`, or a completed result carrying a numeric
`task_id` and the task — never more than one (the three shapes are
pairwise incompatible: distinct `Except` constructors, distinct `status`
values) and never none; no other, partial result shape is possible. -/
theorem run_pipeline_exactly_one_outcome (env : Env) (store : Store)
    (t : String) (tid : Option Int) :
    (∃ e, run_pipeline env store t tid = .error e) ∨
    (∃ reason category store2, run_pipeline env store t tid =
      .ok (.obj [("status", .str "rejected"),
                 ("rejection_reason", reason),
                 ("rejection_category", category)], store2)) ∨
    (∃ i task store2, run_pipeline env store t tid =
      .ok (.obj [("status", .str "completed"),
                 ("task_id", .num i),
                 ("task", task)], store2)) := by
  cases hg : runGraph env store (initialState t tid store) with
  | error e => exact .inl ⟨e, run_pipeline_error_of_runGraph hg⟩
  | ok r =>
    cases r with
    | mk p store2 =>
      obtain ⟨s1, s2, s3, hE, hN, hQ, hbr⟩ := runGraph_shape hg
      cases hbr with
      | inl hrej =>
        obtain ⟨hst, hp, hs⟩ := hrej
        have hpst : p.status = "rejected" := by rw [hp]; exact hst
        refine .inr (.inl ⟨p.rejection_reason, p.rejection_category, store2, ?_⟩)
        rw [run_pipeline_of_runGraph hg, pipelineResult_rejected hpst]
      | inr hcomp =>
        obtain ⟨hne, hpc, s4, hP, hSv⟩ := hcomp
        obtain ⟨i, hsave, hp⟩ := save_node_ok hSv
        have hsid : p.saved_task_id = some i := by rw [hp]
        refine .inr (.inr ⟨i, optJVal p.final_task, store2, ?_⟩)
        rw [run_pipeline_of_runGraph hg, pipelineResult_completed hpc, hsid]
        rfl


/-- C1 (counterexample): the claim says any verdict other than the accept
sentinel `"accepted"` routes to Rejection with no `task_id` and no store
row.  With the verdict `"maybe"` — which is not `"accepted"` — the run
nevertheless completes: the result status is `completed`, `task_id` is
present and one `tasks` row is written, because `qa_node`/`qa_router`
test only for the reject sentinel `"rejected"`. -/
theorem qa_accept_sentinel_counterexample :
    qaMaybeReplyVal.getD "qa_decision" .null = .str "maybe" ∧
    (run_pipeline envMaybe testStore testTranscript none).toOption.map
      (fun pr => (pr.1.getD "status" .null, pr.1.hasKey "task_id",
        pr.2.tasks.length)) = some (.str "completed", true, 1) :=
  ⟨rfl, rfl⟩

/-- C1 (amended): the Prioritization stage (and hence the Persister)
executes if and only if the QA verdict differs from the reject sentinel
`"rejected"`: a `"rejected"` verdict yields a rejected result with no
`task_id` key and an unchanged store, and any other verdict value yields
a completed result with a numeric `task_id` and exactly one new store
row. -/
theorem qa_routing_reject_sentinel (env : Env) (store : Store) (t : String)
    (tid : Option Int) (qa res : JVal) (store2 : Store)
    (hqa : env.qa_reply = .parsed qa)
    (hok : run_pipeline env store t tid = .ok (res, store2)) :
    ((qa.getD "qa_decision" .null).isStr "rejected" = true →
      res.getD "status" .null = .str "rejected" ∧
      res.hasKey "task_id" = false ∧ store2 = store) ∧
    ((qa.getD "qa_decision" .null).isStr "rejected" = false →
      res.getD "status" .null = .str "completed" ∧
      (∃ i, res.getKey? "task_id" = some (.num i)) ∧
      store2.tasks.length = store.tasks.length + 1) := by
  obtain ⟨p, hg, hres⟩ := run_pipeline_ok_inv hok
  obtain ⟨s1, s2, s3, hE, hN, hQ, hbr⟩ := runGraph_shape hg
  obtain ⟨er, e1, pv, v, _, _, _, _, hs1⟩ := extraction_node_ok hE
  obtain ⟨nr, pv2, w, _, _, _, hs2⟩ := normalization_node_ok hN
  have hs2status : s2.status = "pending" := by rw [hs2, hs1]; rfl
  obtain ⟨qa2, hqa2, hqabr⟩ := qa_node_ok hQ
  rw [hqa] at hqa2
  cases hqa2
  cases hbr with
  | inl hrej =>
    obtain ⟨hst, hp, hs⟩ := hrej
    cases hqabr with
    | inr hacc =>
      obtain ⟨hdecf, final, hset, hs3⟩ := hacc
      exfalso
      have h2 : s2.status = "rejected" := by rw [hs3] at hst; exact hst
      rw [hs2status] at h2
      exact absurd h2 (by decide)
    | inl hrej2 =>
      obtain ⟨hdec, hs3⟩ := hrej2
      constructor
      · intro _
        have hpst : p.status = "rejected" := by rw [hp]; exact hst
        rw [hres, pipelineResult_rejected hpst]
        exact ⟨rfl, rfl, hs⟩
      · intro hdecf
        rw [hdec] at hdecf
        cases hdecf
  | inr hcomp =>
    obtain ⟨hne, hpc, s4, hP, hSv⟩ := hcomp
    cases hqabr with
    | inl hrej2 =>
      obtain ⟨hdec, hs3⟩ := hrej2
      exfalso
      exact hne (by rw [hs3])
    | inr hacc =>
      obtain ⟨hdecf, final, hset, hs3⟩ := hacc
      constructor
      · intro hdec
        rw [hdecf] at hdec
        cases hdec
      · intro _
        obtain ⟨i, hsave, hp⟩ := save_node_ok hSv
        have hsid : p.saved_task_id = some i := by rw [hp]
        refine ⟨?_, ⟨i, ?_⟩, ?_⟩
        · rw [hres, pipelineResult_completed hpc]
          rfl
        · rw [hres, pipelineResult_completed hpc, hsid]
          rfl
        · rcases save_task_to_db_shape (optJVal s4.final_task)
            s4.transcript_id store with ⟨e, herr, _⟩ | ⟨row, _, hok2⟩
          · rw [herr] at hsave; cases hsave
          · rw [hok2] at hsave
            cases hsave
            simp [List.length_append]

/-- C1 (witness): the amended theorem applied to the concrete rejected
run `envReject` on `testStore`. -/
theorem qa_routing_reject_sentinel_witness :
    rejResVal.getD "status" .null = .str "rejected" ∧
    rejResVal.hasKey "task_id" = false ∧ testStore = testStore :=
  (qa_routing_reject_sentinel envReject testStore testTranscript none
    qaRejectReplyVal rejResVal testStore rfl rfl).1 rfl

/-- C8: on rejection, `qa_node` sets only `qa_result`, the two rejection
fields and the verdict — the record-update equality shows every other
slot, in particular `normalized_task` and `final_task`, untouched — and
at the end of any run the rejection record and the final task are
mutually exclusive: a rejected final state has `final_task = none` and
no persisted id (and an unchanged store), a non-rejected one has both
rejection fields still `null`. -/
theorem qa_rejection_frame_and_exclusive (env : Env) (store : Store)
    (t : String) (tid : Option Int) :
    (∀ s s' qa, env.qa_reply = .parsed qa →
      (qa.getD "qa_decision" .null).isStr "rejected" = true →
      qa_node env s = .ok s' →
      s' = { s with qa_result := some qa
                    rejection_reason := qa.getD "rejection_reason" .null
                    rejection_category := qa.getD "rejection_category" .null
                    status := "rejected" }) ∧
    (∀ p store2,
      runGraph env store (initialState t tid store) = .ok (p, store2) →
      (p.status = "rejected" →
        p.final_task = none ∧ p.saved_task_id = none ∧ store2 = store) ∧
      (p.status ≠ "rejected" →
        p.rejection_reason = .null ∧ p.rejection_category = .null)) := by
  constructor
  · intro s s' qa hqa hdec hok
    obtain ⟨qa2, hqa2, hbr⟩ := qa_node_ok hok
    rw [hqa] at hqa2
    cases hqa2
    cases hbr with
    | inl hrej => exact hrej.2
    | inr hacc =>
      rw [hacc.1] at hdec
      cases hdec
  · intro p store2 hg
    obtain ⟨s1, s2, s3, hE, hN, hQ, hbr⟩ := runGraph_shape hg
    obtain ⟨er, e1, pv, v, _, _, _, _, hs1⟩ := extraction_node_ok hE
    obtain ⟨nr, pv2, w, _, _, _, hs2⟩ := normalization_node_ok hN
    obtain ⟨qa2, hqa2, hqabr⟩ := qa_node_ok hQ
    cases hbr with
    | inl hrej =>
      obtain ⟨hst, hp, hs⟩ := hrej
      cases hqabr with
      | inr hacc =>
        obtain ⟨hdecf, final, hset, hs3⟩ := hacc
        exfalso
        have h2 : s2.status = "rejected" := by rw [hs3] at hst; exact hst
        rw [hs2, hs1] at h2
        have h3 : ("pending" : String) = "rejected" := h2
        exact absurd h3 (by decide)
      | inl hrej2 =>
        obtain ⟨hdec, hs3⟩ := hrej2
        constructor
        · intro _
          refine ⟨?_, ?_, hs⟩
          · rw [hp, hs3, hs2, hs1]
            rfl
          · rw [hp, hs3, hs2, hs1]
            rfl
        · intro hne
          exact absurd (show p.status = "rejected" by rw [hp]; exact hst) hne
    | inr hcomp =>
      obtain ⟨hne3, hpc, s4, hP, hSv⟩ := hcomp
      cases hqabr with
      | inl hrej2 =>
        obtain ⟨hdec, hs3⟩ := hrej2
        exact absurd (show s3.status = "rejected" by rw [hs3]) hne3
      | inr hacc =>
        obtain ⟨hdecf, final, hset, hs3⟩ := hacc
        obtain ⟨pr, _, hs4⟩ := prioritization_node_ok hP
        obtain ⟨i, hsave, hp⟩ := save_node_ok hSv
        constructor
        · intro hr
          rw [hpc] at hr
          exact absurd hr (by decide)
        · intro _
          constructor
          · rw [hp, hs4, hs3, hs2, hs1]
            rfl
          · rw [hp, hs4, hs3, hs2, hs1]
            rfl

/-- C8 (witness): the frame clause applied to the concrete rejecting QA
reply on the initial state of a `testStore` run. -/
theorem qa_rejection_frame_witness :
    s0TestQA = { s0Test with
      qa_result := some qaRejectReplyVal
      rejection_reason := qaRejectReplyVal.getD "rejection_reason" .null
      rejection_category := qaRejectReplyVal.getD "rejection_category" .null
      status := "rejected" } :=
  (qa_rejection_frame_and_exclusive envReject testStore testTranscript none).1
    s0Test s0TestQA qaRejectReplyVal rfl rfl rfl

theorem initLineage_fresh {er e1 : JVal}
    (hfresh : er.hasKey "lineage_metadata" = false)
    (h : initLineage er = .ok e1) :
    er.setKey "lineage_metadata" (.obj [("processing_chain", .arr [])]) =
      some e1 := by
  unfold initLineage at h
  have hn : ¬(er.hasKey "lineage_metadata" = true) := by
    intro hc
    rw [hfresh] at hc
    exact Bool.noConfusion hc
  rw [if_neg hn] at h
  cases hset : er.setKey "lineage_metadata"
      (.obj [("processing_chain", .arr [])]) with
  | none => simp only [hset] at h; cases h
  | some v =>
    simp only [hset] at h
    cases h
    rfl

theorem chainOf_init {er e1 : JVal}
    (hset : er.setKey "lineage_metadata"
      (.obj [("processing_chain", .arr [])]) = some e1) :
    chainOf e1 = some [] := by
  unfold chainOf
  rw [JVal.getKey?_setKey_self hset]
  rfl

/-- C2 (counterexample): the claim says a rejected run's lineage chain
ends with exactly 3 entries (extraction, normalization, QA).  On the
concrete rejected run `envReject` — whose replies even echo the incoming
chain faithfully — the chain in the task payload ends with exactly the 2
entries appended by extraction and normalization, because `qa_node`
appends no provenance record. -/
theorem lineage_rejected_three_counterexample :
    (runGraph envReject testStore
        (initialState testTranscript none testStore)).toOption.map
      (fun pr => (pr.1.status, pr.1.normalized_task.map chainOf)) =
      some ("rejected",
        some (some [lineageEntry "extraction" (.str "v1") "t1",
                    lineageEntry "normalization" (.str "v1") "t2"])) ∧
    [lineageEntry "extraction" (.str "v1") "t1",
     lineageEntry "normalization" (.str "v1") "t2"].length ≠ 3 :=
  ⟨rfl, by decide⟩

/-- C2 (amended): per run, the extraction and normalization stages each
append exactly one lineage entry — in execution order and carrying the
policy snapshot's `policy_version` — and QA appends none; hence a
rejected run whose fresh extraction reply and chain-echoing
normalization reply are well-formed ends with exactly 2 entries
(extraction, normalization), not 3. -/
theorem lineage_two_appends (env : Env) (store : Store) (t : String)
    (tid : Option Int) (p : PipelineState) (store2 : Store) (er nr : JVal)
    (hE : env.extraction_reply = .parsed er)
    (hfresh : er.hasKey "lineage_metadata" = false)
    (hN : env.normalization_reply = .parsed nr)
    (hrun : runGraph env store (initialState t tid store) = .ok (p, store2))
    (hrej : p.status = "rejected")
    (hecho : ∀ v, p.extracted_task = some v → chainOf nr = chainOf v) :
    ∃ pv, (fetch_active_policy store).getKey? "policy_version" = some pv ∧
      p.normalized_task.map chainOf =
        some (some [lineageEntry "extraction" pv env.extraction_ts,
                    lineageEntry "normalization" pv env.normalization_ts]) := by
  obtain ⟨s1, s2, s3, hEo, hNo, hQo, hbr⟩ := runGraph_shape hrun
  obtain ⟨er2, e1, pv, v, hrep, hinit, hreq, happ, hs1⟩ := extraction_node_ok hEo
  rw [hE] at hrep
  cases hrep
  obtain ⟨nr2, pv2, w, hrep2, hreq2, happ2, hs2⟩ := normalization_node_ok hNo
  rw [hN] at hrep2
  cases hrep2
  obtain ⟨qa2, hqa2, hqabr⟩ := qa_node_ok hQo
  cases hbr with
  | inr hcomp =>
    exfalso
    rw [hcomp.2.1] at hrej
    exact absurd hrej (by decide)
  | inl hrej3 =>
    obtain ⟨hst, hp, hs⟩ := hrej3
    have hnorm3 : s3.normalized_task = s2.normalized_task := by
      cases hqabr with
      | inl hb => rw [hb.2]
      | inr hb =>
        obtain ⟨_, f, _, hs3⟩ := hb
        rw [hs3]
    have hex3 : s3.extracted_task = s2.extracted_task := by
      cases hqabr with
      | inl hb => rw [hb.2]
      | inr hb =>
        obtain ⟨_, f, _, hs3⟩ := hb
        rw [hs3]
    have hex : p.extracted_task = some v := by
      rw [hp, hex3, hs2, hs1]
    have hchainnr : chainOf nr = chainOf v := hecho v hex
    have hinit2 := initLineage_fresh hfresh hinit
    have hc1 : chainOf e1 = some [] := chainOf_init hinit2
    obtain ⟨xs, hxs, hcv, _⟩ := appendToChain_ok happ
    rw [hc1] at hxs
    cases hxs
    obtain ⟨ys, hys, hcw, _⟩ := appendToChain_ok happ2
    rw [hchainnr, hcv] at hys
    cases hys
    have hpveq : pv2 = pv := by
      have a1 := requireKey_ok_iff.mp hreq
      have a2 := requireKey_ok_iff.mp hreq2
      rw [hs1] at a2
      have a3 : (initialState t tid store).policy_snapshot.getKey?
          "policy_version" = some pv2 := a2
      rw [a1] at a3
      cases a3
      rfl
    have hnormp : p.normalized_task = some w := by
      rw [hp, hnorm3, hs2]
    refine ⟨pv, requireKey_ok_iff.mp hreq, ?_⟩
    rw [hnormp]
    show some (chainOf w) = _
    rw [hcw, hpveq]
    rfl

/-- C2 (witness): the amended theorem applied to the concrete rejected
run `envReject` on `testStore` (policy version `v1`, timestamps
`t1`/`t2`). -/
theorem lineage_two_appends_witness :
    ∃ pv, (fetch_active_policy testStore).getKey? "policy_version" = some pv ∧
      rejectedStateVal.normalized_task.map chainOf =
        some (some [lineageEntry "extraction" pv "t1",
                    lineageEntry "normalization" pv "t2"]) :=
  lineage_two_appends envReject testStore testTranscript none
    rejectedStateVal testStore extractionReplyVal normalizationReplyVal
    rfl rfl rfl rfl rfl
    (fun v hv => by cases hv; rfl)

/-- C10: when QA accepts (verdict `"accepted"`) and the reply carries no
`validated_task`, the run neither fails nor is rejected: the normalized
payload itself becomes the final baseline, with `qa_metadata` defaulting
to the empty record when the reply also lacks it, and every other field
of the normalized payload carried over unchanged. -/
theorem qa_accept_without_validated_task (env : Env) (s s' : PipelineState)
    (qa nt : JVal)
    (hqa : env.qa_reply = .parsed qa)
    (hdec : qa.getD "qa_decision" .null = .str "accepted")
    (hvt : qa.hasKey "validated_task" = false)
    (hqm : qa.hasKey "qa_metadata" = false)
    (hnt : s.normalized_task = some nt)
    (hok : qa_node env s = .ok s') :
    s'.final_task = nt.setKey "qa_metadata" (.obj []) ∧
    s'.status = s.status ∧
    (∀ final, s'.final_task = some final →
      ∀ k, (k == "qa_metadata") = false → final.getKey? k = nt.getKey? k) := by
  obtain ⟨qa2, hqa2, hbr⟩ := qa_node_ok hok
  rw [hqa] at hqa2
  cases hqa2
  cases hbr with
  | inl hrej =>
    exfalso
    have hb := hrej.1
    rw [hdec] at hb
    exact absurd hb (by decide)
  | inr hacc =>
    obtain ⟨hdecf, final, hset, hs'⟩ := hacc
    rw [JVal.getD_of_hasKey_false hvt, hnt,
        JVal.getD_of_hasKey_false hqm] at hset
    refine ⟨?_, ?_, ?_⟩
    · rw [hs']
      exact hset.symm
    · rw [hs']
    · intro final2 hf k hk
      rw [hs'] at hf
      have hf2 : some final = some final2 := hf
      cases hf2
      exact JVal.getKey?_setKey_ne hset hk

/-- C10 (witness): the theorem applied to the bare accepting QA reply on
the state holding the concrete normalized payload. -/
theorem qa_accept_without_validated_task_witness :
    ({ sNormTest with qa_result := some qaAcceptBareReplyVal
                      final_task := some finalBareVal } :
        PipelineState).final_task =
      normalizedOutVal.setKey "qa_metadata" (.obj []) :=
  (qa_accept_without_validated_task envAcceptBare sNormTest
    { sNormTest with qa_result := some qaAcceptBareReplyVal
                     final_task := some finalBareVal }
    qaAcceptBareReplyVal normalizedOutVal rfl rfl rfl rfl rfl rfl).1

/-- C4 (counterexample): the claim says every stage's output payload is a
superset of the previous stage's payload, fields never removed.  On the
concrete run `envDropField` — whose normalization reply omits the
`description` field — the extraction output has `description` and the
normalization output does not: the pipeline enforces no field
preservation between stages. -/
theorem stage_refinement_counterexample :
    (runGraph envDropField testStore
        (initialState testTranscript none testStore)).toOption.map
      (fun pr => (pr.1.extracted_task.map (fun x => x.hasKey "description"),
                  pr.1.normalized_task.map (fun x => x.hasKey "description"))) =
      some (some true, some false) :=
  rfl

/-- C4 (amended): the stages themselves never remove a field from the
reply they receive — normalization's stage output is its service reply
with only the lineage chain extended by one entry (every key other than
`lineage_metadata` is exactly the reply's), and prioritization's output
is its reply verbatim — but a superset relation between consecutive
stage payloads is not enforced by the pipeline: it holds only when the
generation-service replies themselves preserve the fields. -/
theorem stage_merge_preserves_reply_fields (env : Env) :
    (∀ s s' nr, env.normalization_reply = .parsed nr →
      normalization_node env s = .ok s' →
      ∃ w, s'.normalized_task = some w ∧
        (∀ k, (k == "lineage_metadata") = false →
          w.getKey? k = nr.getKey? k) ∧
        ∃ xs e, chainOf nr = some xs ∧ chainOf w = some (xs ++ [e])) ∧
    (∀ s s' pr, env.prioritization_reply = .parsed pr →
      prioritization_node env s = .ok s' → s'.final_task = some pr) := by
  constructor
  · intro s s' nr hnr hok
    obtain ⟨nr2, pv, w, hrep, hreq, happ, hs'⟩ := normalization_node_ok hok
    rw [hnr] at hrep
    cases hrep
    obtain ⟨xs, hxs, hcw, hframe⟩ := appendToChain_ok happ
    exact ⟨w, by rw [hs'], hframe,
      xs, lineageEntry "normalization" pv env.normalization_ts, hxs, hcw⟩
  · intro s s' pr hpr hok
    obtain ⟨pr2, hrep, hs'⟩ := prioritization_node_ok hok
    rw [hpr] at hrep
    cases hrep
    rw [hs']

/-- C4 (witness): the prioritization clause applied to the concrete
reply on the initial `testStore` state. -/
theorem stage_merge_preserves_reply_fields_witness :
    ({ s0Test with final_task := some prioritizationReplyVal
                   status := "completed" } : PipelineState).final_task =
      some prioritizationReplyVal :=
  (stage_merge_preserves_reply_fields envReject).2 s0Test
    { s0Test with final_task := some prioritizationReplyVal
                  status := "completed" }
    prioritizationReplyVal rfl rfl

/-- C6: the Persister is not idempotent: whenever a save succeeds,
saving the identical final task and transcript id again against the
resulting store succeeds too, returns a distinct generated identifier,
and leaves two more stored rows than before the first call. -/
theorem save_twice_not_idempotent (task : JVal) (tid : Option Int)
    (store : Store) (id1 : Int) (s1 : Store)
    (h : save_task_to_db task tid store = .ok (id1, s1)) :
    ∃ id2 s2, save_task_to_db task tid s1 = .ok (id2, s2) ∧ id1 ≠ id2 ∧
      s2.tasks.length = store.tasks.length + 2 := by
  rcases save_task_to_db_shape task tid store with ⟨e, herr, _⟩ | ⟨row, hrow, hok⟩
  · rw [herr] at h
    cases h
  · rw [hok] at h
    cases h
    rcases save_task_to_db_shape task tid
        { store with tasks := store.tasks ++ [row store.next_task_id]
                     next_task_id := store.next_task_id + 1 }
      with ⟨e2, herr2, hcols2⟩ | ⟨row2, hrow2, hok2⟩
    · rw [hrow] at hcols2
      cases hcols2
    · refine ⟨store.next_task_id + 1, _, hok2, ?_, ?_⟩
      · omega
      · simp [List.length_append]

/-- C6 (witness): saving the concrete prioritized task twice from
`testStore` yields a second, distinct id and two rows. -/
theorem save_twice_not_idempotent_witness :
    ∃ id2 s2, save_task_to_db prioritizationReplyVal none savedOnceStore =
        .ok (id2, s2) ∧ (1 : Int) ≠ id2 ∧
      s2.tasks.length = testStore.tasks.length + 2 :=
  save_twice_not_idempotent prioritizationReplyVal none testStore 1
    savedOnceStore rfl

theorem extraction_node_malformed (env : Env) (s : PipelineState) (r : String)
    (h : env.extraction_reply = .malformed r) :
    extraction_node env s = .error (.jsonParseError "extraction") := by
  unfold extraction_node
  rw [h]
  rfl

theorem normalization_node_malformed (env : Env) (s : PipelineState)
    (r : String) (h : env.normalization_reply = .malformed r) :
    normalization_node env s = .error (.jsonParseError "normalization") := by
  unfold normalization_node
  rw [h]
  rfl

theorem qa_node_malformed (env : Env) (s : PipelineState) (r : String)
    (h : env.qa_reply = .malformed r) :
    qa_node env s = .error (.jsonParseError "qa") := by
  unfold qa_node
  rw [h]
  rfl

theorem prioritization_node_malformed (env : Env) (s : PipelineState)
    (r : String) (h : env.prioritization_reply = .malformed r) :
    prioritization_node env s = .error (.jsonParseError "prioritization") := by
  unfold prioritization_node
  rw [h]
  rfl

/-- C7: an unparseable generation-service reply aborts the whole run as
the system-level parse error tagged with the stage that received it
(`json.JSONDecodeError`, the API's 500-class error), for whichever stage
the run had reached; the run is a single function application, so
nothing is retried, and the error outcome is by construction distinct
from every ok outcome, in particular from QA's rejected result. -/
theorem malformed_reply_aborts (env : Env) (store : Store) (t : String)
    (tid : Option Int) :
    (∀ r, env.extraction_reply = .malformed r →
      run_pipeline env store t tid = .error (.jsonParseError "extraction")) ∧
    (∀ r s1, env.normalization_reply = .malformed r →
      extraction_node env (initialState t tid store) = .ok s1 →
      run_pipeline env store t tid = .error (.jsonParseError "normalization")) ∧
    (∀ r s1 s2, env.qa_reply = .malformed r →
      extraction_node env (initialState t tid store) = .ok s1 →
      normalization_node env s1 = .ok s2 →
      run_pipeline env store t tid = .error (.jsonParseError "qa")) ∧
    (∀ r s1 s2 s3, env.prioritization_reply = .malformed r →
      extraction_node env (initialState t tid store) = .ok s1 →
      normalization_node env s1 = .ok s2 →
      qa_node env s2 = .ok s3 → s3.status ≠ "rejected" →
      run_pipeline env store t tid =
        .error (.jsonParseError "prioritization")) ∧
    (∀ e res, (Except.error e : Except PipeError (JVal × Store)) ≠ .ok res) := by
  refine ⟨?_, ?_, ?_, ?_, ?_⟩
  · intro r hr
    unfold run_pipeline runGraph
    rw [extraction_node_malformed env (initialState t tid store) r hr]
  · intro r s1 hr hE
    unfold run_pipeline runGraph
    simp only [hE]
    rw [normalization_node_malformed env s1 r hr]
  · intro r s1 s2 hr hE hN
    unfold run_pipeline runGraph
    simp only [hE, hN]
    rw [qa_node_malformed env s2 r hr]
  · intro r s1 s2 s3 hr hE hN hQ hne
    unfold run_pipeline runGraph
    simp only [hE, hN, hQ]
    have hstf : (s3.status == "rejected") = false :=
      beq_eq_false_iff_ne.mpr hne
    have hrf : ¬((qa_router s3 == "rejection") = true) := by
      unfold qa_router
      rw [if_neg (by rw [hstf]; exact Bool.noConfusion)]
      decide
    rw [if_neg hrf]
    rw [prioritization_node_malformed env s3 r hr]
  · intro e res hc
    cases hc

/-- C7 (witness): the normalization clause applied to the concrete run
whose normalization reply is the unparseable text `"not json"`. -/
theorem malformed_reply_aborts_witness :
    run_pipeline envMalformedNorm testStore testTranscript none =
      .error (.jsonParseError "normalization") :=
  (malformed_reply_aborts envMalformedNorm testStore testTranscript
    none).2.1 "not json" s1ExtractedTest rfl rfl

/-- C9: when the store holds no active policy row, loading the grounding
context does not fail: `fetch_active_policy` returns the synthetic
snapshot `{"policy_version": "none", "rules": {}}`, the run proceeds,
and each lineage entry written during such a run — the one extraction
appends and the one normalization appends — carries policy_version
`"none"` (the chain ends with that entry after each of the two
appends). -/
theorem no_active_policy_fallback (store : Store)
    (h : store.policies.filter (·.active) = []) :
    fetch_active_policy store =
      .obj [("policy_version", .str "none"), ("rules", .obj [])] ∧
    (∀ env t tid s1, extraction_node env (initialState t tid store) = .ok s1 →
      ∃ v xs, s1.extracted_task = some v ∧
        chainOf v = some (xs ++
          [lineageEntry "extraction" (.str "none") env.extraction_ts])) ∧
    (∀ env s s', s.policy_snapshot = fetch_active_policy store →
      normalization_node env s = .ok s' →
      ∃ v xs, s'.normalized_task = some v ∧
        chainOf v = some (xs ++
          [lineageEntry "normalization" (.str "none") env.normalization_ts])) := by
  have hfetch : fetch_active_policy store =
      .obj [("policy_version", .str "none"), ("rules", .obj [])] := by
    unfold fetch_active_policy activePolicyRow
    rw [h]
    rfl
  refine ⟨hfetch, ?_, ?_⟩
  · intro env t tid s1 hE
    obtain ⟨er, e1, pv, v, hrep, hinit, hreq, happ, hs1⟩ := extraction_node_ok hE
    have hreq2 := requireKey_ok_iff.mp hreq
    have hreq3 : (JVal.obj [("policy_version", .str "none"),
        ("rules", .obj [])]).getKey? "policy_version" = some pv := by
      rw [← hfetch]
      exact hreq2
    have hpv : some (JVal.str "none") = some pv := hreq3
    cases hpv
    obtain ⟨xs, hxs, hcv, _⟩ := appendToChain_ok happ
    exact ⟨v, xs, by rw [hs1], hcv⟩
  · intro env s s' hps hN
    obtain ⟨nr, pv, v, hrep, hreq, happ, hs'⟩ := normalization_node_ok hN
    have hreq2 := requireKey_ok_iff.mp hreq
    rw [hps, hfetch] at hreq2
    have hpv : some (JVal.str "none") = some pv := hreq2
    cases hpv
    obtain ⟨xs, hxs, hcv, _⟩ := appendToChain_ok happ
    exact ⟨v, xs, by rw [hs'], hcv⟩

/-- C9 (witness): the fallback and the extraction-entry clause applied
to `noPolicyStore` and the concrete run `envReject`. -/
theorem no_active_policy_fallback_witness :
    fetch_active_policy noPolicyStore =
      .obj [("policy_version", .str "none"), ("rules", .obj [])] ∧
    ∃ v xs, s1NonePolicyTest.extracted_task = some v ∧
      chainOf v = some (xs ++
        [lineageEntry "extraction" (.str "none") "t1"]) :=
  ⟨(no_active_policy_fallback noPolicyStore rfl).1,
   (no_active_policy_fallback noPolicyStore rfl).2.1 envReject
     testTranscript none s1NonePolicyTest rfl⟩

theorem save_node_store_agnostic (s : PipelineState) (st1 st2 : Store)
    (hT : st1.tasks = st2.tasks) (hI : st1.next_task_id = st2.next_task_id) :
    (save_node s st1).map (fun pr => (pr.1, pr.2.tasks, pr.2.next_task_id)) =
    (save_node s st2).map (fun pr => (pr.1, pr.2.tasks, pr.2.next_task_id)) := by
  rcases save_task_to_db_shape (optJVal s.final_task) s.transcript_id st1
    with ⟨e, he1, hc1⟩ | ⟨row, hr1, ho1⟩
  · rcases save_task_to_db_shape (optJVal s.final_task) s.transcript_id st2
      with ⟨e2, he2, hc2⟩ | ⟨row2, hr2, _⟩
    · rw [hc1] at hc2
      cases hc2
      unfold save_node
      simp only [he1, he2]
    · rw [hc1] at hr2
      cases hr2
  · rcases save_task_to_db_shape (optJVal s.final_task) s.transcript_id st2
      with ⟨e2, _, hc2⟩ | ⟨row2, hr2, ho2⟩
    · rw [hr1] at hc2
      cases hc2
    · rw [hr1] at hr2
      cases hr2
      unfold save_node
      simp only [ho1, ho2, Except.map, Except.ok.injEq, Prod.mk.injEq]
      rw [hT, hI]
      exact ⟨rfl, rfl, rfl⟩

theorem runGraph_store_agnostic (env : Env) (st1 st2 : Store)
    (s0 : PipelineState) (hT : st1.tasks = st2.tasks)
    (hI : st1.next_task_id = st2.next_task_id) :
    (runGraph env st1 s0).map (fun pr => (pr.1, pr.2.tasks, pr.2.next_task_id)) =
    (runGraph env st2 s0).map (fun pr => (pr.1, pr.2.tasks, pr.2.next_task_id)) := by
  unfold runGraph
  cases hE : extraction_node env s0 with
  | error e => rfl
  | ok s1 =>
    simp only []
    cases hN : normalization_node env s1 with
    | error e => rfl
    | ok s2 =>
      simp only []
      cases hQ : qa_node env s2 with
      | error e => rfl
      | ok s3 =>
        simp only []
        by_cases hr : (qa_router s3 == "rejection") = true
        · rw [if_pos hr, if_pos hr]
          simp only [Except.map]
          rw [hT, hI]
        · rw [if_neg hr, if_neg hr]
          cases hP : prioritization_node env s3 with
          | error e => rfl
          | ok s4 => exact save_node_store_agnostic s4 st1 st2 hT hI

/-- C5: the grounding data, policy snapshot and priority weights are read
from the store only when the initial state is built; a store mutation
applied after those reads — one that leaves the `tasks` table and its id
sequence alone, i.e. any mutation of the grounding tables — changes
neither the run's result (final state, and hence the returned dict) nor
the task rows and id counter the run leaves behind. -/
theorem midrun_mutation_invisible (env : Env) (store : Store)
    (mutate : Store → Store) (t : String) (tid : Option Int)
    (hT : (mutate store).tasks = store.tasks)
    (hI : (mutate store).next_task_id = store.next_task_id) :
    (run_pipeline_midMutation env store mutate t tid).map
      (fun pr => (pr.1, pr.2.tasks, pr.2.next_task_id)) =
    (run_pipeline env store t tid).map
      (fun pr => (pr.1, pr.2.tasks, pr.2.next_task_id)) := by
  have key := runGraph_store_agnostic env (mutate store) store
    (initialState t tid store) hT hI
  unfold run_pipeline_midMutation run_pipeline
  cases hg1 : runGraph env (mutate store) (initialState t tid store) with
  | error e =>
    cases hg2 : runGraph env store (initialState t tid store) with
    | error e2 =>
      rw [hg1, hg2] at key
      simp only [Except.map] at key
      cases key
      rfl
    | ok r2 =>
      rw [hg1, hg2] at key
      simp only [Except.map] at key
      cases key
  | ok r1 =>
    cases hg2 : runGraph env store (initialState t tid store) with
    | error e2 =>
      rw [hg1, hg2] at key
      simp only [Except.map] at key
      cases key
    | ok r2 =>
      cases r1 with
      | mk p1 q1 =>
        cases r2 with
        | mk p2 q2 =>
          rw [hg1, hg2] at key
          simp only [Except.map, Except.ok.injEq, Prod.mk.injEq] at key
          simp only [Except.map, Except.ok.injEq, Prod.mk.injEq]
          exact ⟨congrArg pipelineResult key.1, key.2⟩

/-- C5 (witness): the theorem applied to the completing run `envMaybe`
with the concrete grounding mutation (deactivating every participant and
prepending a new active policy) applied mid-run. -/
theorem midrun_mutation_invisible_witness :
    (run_pipeline_midMutation envMaybe testStore groundingMutation
        testTranscript none).map
      (fun pr => (pr.1, pr.2.tasks, pr.2.next_task_id)) =
    (run_pipeline envMaybe testStore testTranscript none).map
      (fun pr => (pr.1, pr.2.tasks, pr.2.next_task_id)) :=
  midrun_mutation_invisible envMaybe testStore groundingMutation
    testTranscript none rfl rfl
